import Mathlib

/-!
Shallow embedding of the `gitgrab` repository-synchronization engine.

The canonical typed engine lives in the library package (file with
`CloneMethod`, wrapper types, `GitHubClient.FetchAllRepos`, `CloneRepo`);
an earlier untyped engine (`gitgrab.go`) is embedded separately under
`Legacy`.  Pure computations are translated directly; the process and
network boundaries (`os.Stat`, `git branch --show-current`, the HTTP
client, the JSON decoder) are passed in as explicit inputs, which is how
the Go code itself abstracts them for testing.
-/

namespace Gitgrab

/-- Embeds the Go `CloneMethod` enumeration.  The Go type is an `int` with
exactly two declared constants `CloneMethodSSH` and `CloneMethodHTTP`; no
other value is ever constructed in the program, so the embedding is a
two-constructor inductive. -/
inductive CloneMethod where
  | ssh
  | http
deriving DecidableEq, Repr

/-- Embeds `func (c CloneMethod) String() string`.  The Go `default`
branch (returning `"unknown"`) is unreachable for the two declared
constants, which are the only inhabitants of the embedded type. -/
def CloneMethod.toString : CloneMethod → String
  | CloneMethod.ssh => "ssh"
  | CloneMethod.http => "http"

/-- Embeds Go `strings.ToLower`: lower-cases every character
(character-wise map; `Char.toLower` agrees with Go's mapping on the
ASCII inputs the parser compares against). -/
def strToLower (s : String) : String := String.mk (s.data.map Char.toLower)

/-- Embeds `func ParseCloneMethod(s string) (CloneMethod, error)`:
`switch strings.ToLower(s)` with cases `"ssh"`, `"http"` and a default
returning `(CloneMethodSSH, fmt.Errorf("invalid clone method: %s,
defaulting to ssh", s))`.  The `error` result is `Option String`
(`none` = Go `nil`). -/
def ParseCloneMethod (s : String) : CloneMethod × Option String :=
  if strToLower s = "ssh" then (CloneMethod.ssh, none)
  else if strToLower s = "http" then (CloneMethod.http, none)
  else (CloneMethod.ssh, some ("invalid clone method: " ++ s ++ ", defaulting to ssh"))

/-- Go wrapper type `OrganizationName` (underlying `string`). -/
abbrev OrganizationName := String

/-- Go wrapper type `RepositoryName` (underlying `string`). -/
abbrev RepositoryName := String

/-- Go wrapper type `GitHubToken` (underlying `string`). -/
abbrev GitHubToken := String

/-- Go wrapper type `BranchName` (underlying `string`). -/
abbrev BranchName := String

/-- Go wrapper type `HTTPURL` (underlying `string`). -/
abbrev HTTPURL := String

/-- Go wrapper type `SSHURL` (underlying `string`). -/
abbrev SSHURL := String

/-- Embeds `func (o OrganizationName) IsValid() bool`:
`len(s) > 0 && !strings.ContainsAny(s, " /\\")`.
`strings.ContainsAny` holds when any character of the probe set occurs
in `s`. -/
def OrganizationName.IsValid (o : OrganizationName) : Bool :=
  decide (0 < o.length) && !(o.data.any (fun c => c == ' ' || c == '/' || c == '\\'))

/-- Embeds `func (r RepositoryName) IsValid() bool`, textually identical
to `OrganizationName.IsValid`. -/
def RepositoryName.IsValid (r : RepositoryName) : Bool :=
  decide (0 < r.length) && !(r.data.any (fun c => c == ' ' || c == '/' || c == '\\'))

/-- Embeds the typed `Repository` struct (fields `Name`, `CloneURL`,
`SSHURL`, `Private`, `DefaultBranch`).  The Go field `Private` is named
`priv` here because `private` is a Lean keyword. -/
structure Repository where
  name : RepositoryName
  cloneURL : HTTPURL
  sshURL : SSHURL
  priv : Bool
  defaultBranch : BranchName
deriving DecidableEq, Repr

/-- Embeds the `CloneConfig` struct grouping the parameters of
`CloneRepo`. -/
structure CloneConfig where
  repository : Repository
  targetDir : String
  token : GitHubToken
  organization : OrganizationName
  method : CloneMethod
deriving DecidableEq, Repr

/-- Embeds the clone-URL construction of `CloneRepo` (typed engine):

    if config.Method == CloneMethodSSH {
        cloneURL = config.Repository.SSHURL.String()
    } else {
        if config.Repository.Private {
            cloneURL = fmt.Sprintf("https://%s@github.com/%s/%s.git",
                config.Token, config.Organization, config.Repository.Name)
        } else {
            cloneURL = config.Repository.CloneURL.String()
        }
    }
-/
def constructCloneURL (config : CloneConfig) : String :=
  match config.method with
  | CloneMethod.ssh => config.repository.sshURL
  | CloneMethod.http =>
      if config.repository.priv then
        "https://" ++ config.token ++ "@github.com/" ++ config.organization
          ++ "/" ++ config.repository.name ++ ".git"
      else
        config.repository.cloneURL

/-- The git subprocess action chosen by `CloneRepo` for one repository.
`clone` carries the URL passed to `git clone`. -/
inductive GitAction where
  | clone (url : String)
  | pull
  | fetch
deriving DecidableEq, Repr

/-- Embeds the control flow of `CloneRepo` (typed engine).  The two
external probes are passed in as inputs: `pathExists` is the result of
the `os.Stat(repoPath)` existence check, and `currentBranch` is the
result of `getCurrentBranch` (`none` when the `git branch
--show-current` subprocess fails).  The returned `Bool` records whether
a warning line was printed.  Each branch of the Go code executes exactly
one git subprocess, which is the returned `GitAction`. -/
def cloneRepoAction (config : CloneConfig) (pathExists : Bool)
    (currentBranch : Option String) : GitAction × Bool :=
  if pathExists then
    if config.repository.defaultBranch = "" then
      (GitAction.fetch, true)
    else
      match currentBranch with
      | none => (GitAction.fetch, true)
      | some cb =>
          if cb = config.repository.defaultBranch then
            (GitAction.pull, false)
          else
            (GitAction.fetch, false)
  else
    (GitAction.clone (constructCloneURL config), false)

namespace Legacy

/-- Embeds the untyped `Repository` struct of `gitgrab.go` (all fields
plain strings). -/
structure Repository where
  name : String
  cloneURL : String
  sshURL : String
  priv : Bool
  defaultBranch : String
deriving DecidableEq, Repr

/-- Embeds the clone-URL construction of the untyped
`CloneRepo(repo, targetDir, token, orgName, cloneMethod)` in
`gitgrab.go`:

    if cloneMethod == "ssh" {
        cloneURL = repo.SSHURL
    } else {
        if repo.Private {
            cloneURL = fmt.Sprintf("https://%s@github.com/%s/%s.git", token, orgName, repo.Name)
        } else {
            cloneURL = repo.CloneURL
        }
    }
-/
def cloneURL (repo : Repository) (token orgName cloneMethod : String) : String :=
  if cloneMethod = "ssh" then
    repo.sshURL
  else
    if repo.priv then
      "https://" ++ token ++ "@github.com/" ++ orgName ++ "/" ++ repo.name ++ ".git"
    else
      repo.cloneURL

end Legacy

/-- Embeds the two fields of the Go `*http.Response` that
`FetchAllRepos` reads: `StatusCode` (int), `Status` (status-line text)
and the response body bytes. -/
structure HTTPResponse where
  statusCode : Nat
  status : String
  body : String
deriving DecidableEq, Repr

/-- Embeds the `for` loop of `func (gc *GitHubClient) FetchAllRepos`.
The two external boundaries are inputs: `doGet page` is
`gc.makeRequest(url)` for the request of that page number
(`Except.error` = Go transport error), and `decode` is
`json.NewDecoder(resp.Body).Decode(&repos)` on the body.  `fuel` bounds
the number of iterations observed (the Go loop is unbounded); `none`
means the bound was reached before the loop returned.  Loop body, in
order, as in the source: transport error → `failed to make request`;
`resp.StatusCode != http.StatusOK` → `API request failed: <status> -
<body>`; decode error → `failed to decode response`; empty page →
return the accumulated `allRepos`; otherwise append and advance to
`page + 1`. -/
def fetchPages (doGet : Nat → Except String HTTPResponse)
    (decode : String → Except String (List Repository)) :
    Nat → Nat → List Repository → Option (Except String (List Repository))
  | 0, _, _ => none
  | fuel + 1, page, allRepos =>
      match doGet page with
      | Except.error e => some (Except.error ("failed to make request: " ++ e))
      | Except.ok resp =>
          if resp.statusCode ≠ 200 then
            some (Except.error ("API request failed: " ++ resp.status ++ " - " ++ resp.body))
          else
            match decode resp.body with
            | Except.error e => some (Except.error ("failed to decode response: " ++ e))
            | Except.ok repos =>
                if repos.length = 0 then
                  some (Except.ok allRepos)
                else
                  fetchPages doGet decode fuel (page + 1) (allRepos ++ repos)

/-- `FetchAllRepos` starts the pagination loop at `page = 1` with an
empty accumulator (`var allRepos []Repository`). -/
def FetchAllRepos (doGet : Nat → Except String HTTPResponse)
    (decode : String → Except String (List Repository)) (fuel : Nat) :
    Option (Except String (List Repository)) :=
  fetchPages doGet decode fuel 1 []

/-- Concatenation, in order, of `n` consecutive pages starting at page
number `start`. -/
def concatFrom (pages : Nat → List Repository) (start n : Nat) : List Repository :=
  ((List.range n).map (fun i => pages (start + i))).flatten

/-- `leadsWith n h` holds when the list `n` is an initial segment of
`h` (used to count substring occurrences). -/
def leadsWith : List Char → List Char → Bool
  | [], _ => true
  | _ :: _, [] => false
  | a :: as, b :: bs => a == b && leadsWith as bs

/-- Number of positions of `h` at which the list `n` occurs as a
contiguous sublist. -/
def countOcc (n : List Char) : List Char → Nat
  | [] => if n = [] then 1 else 0
  | c :: t => (if leadsWith n (c :: t) then 1 else 0) + countOcc n t

/-- Sample private repository record used to instantiate theorems on a
concrete input. -/
def demoPriv : Repository :=
  { name := "demo"
    cloneURL := "https://github.com/acme/demo.git"
    sshURL := "git@github.com:acme/demo.git"
    priv := true
    defaultBranch := "main" }

/-- Sample public repository record. -/
def demoPub : Repository := { demoPriv with priv := false }

/-- Sample clone configuration (existing default branch "main"). -/
def demoCfg : CloneConfig :=
  { repository := demoPriv
    targetDir := "/tmp"
    token := "tok123"
    organization := "acme"
    method := CloneMethod.http }

/-- Sample clone configuration whose record has an empty default
branch. -/
def demoCfgNoBranch : CloneConfig :=
  { demoCfg with repository := { demoPriv with defaultBranch := "" } }

/-- Sample repository record for the pagination theorems. -/
def repoA : Repository :=
  { name := "a"
    cloneURL := "https://github.com/acme/a.git"
    sshURL := "git@github.com:acme/a.git"
    priv := false
    defaultBranch := "main" }

/-- Sample untyped repository record for the legacy engine. -/
def legacyDemo : Legacy.Repository :=
  { name := "demo"
    cloneURL := "https://github.com/acme/demo.git"
    sshURL := "git@github.com:acme/demo.git"
    priv := true
    defaultBranch := "main" }

/-- Claim C2: in SSH transport mode the constructed clone URL is the
record's SSH URL verbatim, for every repository record (public or
private), token and organization. -/
theorem ssh_url_verbatim (r : Repository) (dir tok org : String) :
    constructCloneURL ⟨r, dir, tok, org, CloneMethod.ssh⟩ = r.sshURL := rfl

/-- Claim C9: parsing the string form of either valid clone method
returns exactly that method with no error. -/
theorem clone_method_roundtrip :
    ∀ m : CloneMethod, ParseCloneMethod m.toString = (m, none) := by
  intro m
  cases m <;> rfl

/-- Claim C4: the transport-mode parse accepts exactly `"ssh"` and
`"http"` case-insensitively (i.e. by lower-casing the input); every
other input yields the explicit parse error alongside the default
method `ssh`. -/
theorem parse_clone_method_total (s : String) :
    (strToLower s = "ssh" → ParseCloneMethod s = (CloneMethod.ssh, none))
    ∧ (strToLower s = "http" → ParseCloneMethod s = (CloneMethod.http, none))
    ∧ (strToLower s ≠ "ssh" → strToLower s ≠ "http" →
        ParseCloneMethod s
          = (CloneMethod.ssh, some ("invalid clone method: " ++ s ++ ", defaulting to ssh"))) := by
  refine ⟨fun h => ?_, fun h => ?_, fun h1 h2 => ?_⟩
  · simp [ParseCloneMethod, h]
  · simp [ParseCloneMethod, h]
  · simp [ParseCloneMethod, h1, h2]

/-- Witness for claim C4 at the concrete inputs "SSH", "Http" and
"rsync". -/
theorem parse_clone_method_total_witness :
    ParseCloneMethod "SSH" = (CloneMethod.ssh, none)
    ∧ ParseCloneMethod "Http" = (CloneMethod.http, none)
    ∧ ParseCloneMethod "rsync"
        = (CloneMethod.ssh, some ("invalid clone method: " ++ "rsync" ++ ", defaulting to ssh")) :=
  ⟨(parse_clone_method_total "SSH").1 (by decide),
   (parse_clone_method_total "Http").2.1 (by decide),
   (parse_clone_method_total "rsync").2.2 (by decide) (by decide)⟩

/-- Claim C10: in the untyped engine, any clone-method string other
than the exact lowercase `"ssh"` selects the HTTP-mode URL (token-
embedded for private records, the plain clone URL otherwise). -/
theorem legacy_non_ssh_uses_http (m : String) (repo : Legacy.Repository) (tok org : String)
    (h : m ≠ "ssh") :
    Legacy.cloneURL repo tok org m
      = (if repo.priv then
           "https://" ++ tok ++ "@github.com/" ++ org ++ "/" ++ repo.name ++ ".git"
         else repo.cloneURL) := by
  simp [Legacy.cloneURL, h]

/-- Witness for claim C10 at the concrete method string "SSH" and a
private record. -/
theorem legacy_non_ssh_uses_http_witness :
    Legacy.cloneURL legacyDemo "tok123" "acme" "SSH"
      = "https://" ++ "tok123" ++ "@github.com/" ++ "acme" ++ "/" ++ legacyDemo.name ++ ".git" := by
  have h := legacy_non_ssh_uses_http "SSH" legacyDemo "tok123" "acme" (by decide)
  simpa [legacyDemo] using h

/-- Claim C3: when the local path exists, the sync decision is fetch
with a warning if the record's default branch is empty; fetch with a
warning if the current-branch query fails; otherwise pull exactly when
the current branch equals the default branch and fetch otherwise. -/
theorem sync_decision_existing (config : CloneConfig) (cb : Option String) :
    (config.repository.defaultBranch = "" →
      cloneRepoAction config true cb = (GitAction.fetch, true))
    ∧ (config.repository.defaultBranch ≠ "" → cb = none →
      cloneRepoAction config true cb = (GitAction.fetch, true))
    ∧ (∀ c, config.repository.defaultBranch ≠ "" → cb = some c →
      cloneRepoAction config true cb
        = (if c = config.repository.defaultBranch then (GitAction.pull, false)
           else (GitAction.fetch, false))) := by
  refine ⟨fun h => ?_, fun h hn => ?_, fun c h hc => ?_⟩
  · simp [cloneRepoAction, h]
  · subst hn; simp [cloneRepoAction, h]
  · subst hc; simp [cloneRepoAction, h]

/-- Witness for claim C3 at concrete configurations exercising all four
decision outcomes. -/
theorem sync_decision_existing_witness :
    cloneRepoAction demoCfgNoBranch true (some "main") = (GitAction.fetch, true)
    ∧ cloneRepoAction demoCfg true none = (GitAction.fetch, true)
    ∧ cloneRepoAction demoCfg true (some "main") = (GitAction.pull, false)
    ∧ cloneRepoAction demoCfg true (some "dev") = (GitAction.fetch, false) :=
  ⟨(sync_decision_existing demoCfgNoBranch (some "main")).1 rfl,
   (sync_decision_existing demoCfg none).2.1 (by decide) rfl,
   ((sync_decision_existing demoCfg (some "main")).2.2 "main" (by decide) rfl).trans (by decide),
   ((sync_decision_existing demoCfg (some "dev")).2.2 "dev" (by decide) rfl).trans (by decide)⟩

/-- Claim C7: when the local path exists, the chosen action is always
pull or fetch — never a clone (so a second sync after a successful
clone never attempts CLONE, and the existing clone is never
overwritten). -/
theorem existing_path_never_clone (config : CloneConfig) (cb : Option String) :
    (cloneRepoAction config true cb).1 = GitAction.pull
    ∨ (cloneRepoAction config true cb).1 = GitAction.fetch := by
  by_cases hdb : config.repository.defaultBranch = ""
  · simp [cloneRepoAction, hdb]
  · cases cb with
    | none => simp [cloneRepoAction, hdb]
    | some c =>
        by_cases hc : c = config.repository.defaultBranch <;>
          simp [cloneRepoAction, hdb, hc]

/-- The name-validity predicate, spelled out: accepted exactly when the
string is non-empty and contains none of space, slash, backslash. -/
theorem valid_name_iff (s : String) :
    (decide (0 < s.length) && !(s.data.any (fun c => c == ' ' || c == '/' || c == '\\'))) = true
    ↔ s ≠ "" ∧ ' ' ∉ s.data ∧ '/' ∉ s.data ∧ '\\' ∉ s.data := by
  simp only [Bool.and_eq_true, decide_eq_true_eq, Bool.not_eq_true', List.any_eq_false]
  constructor
  · rintro ⟨hlen, hall⟩
    refine ⟨?_, fun hm => hall _ hm (by decide), fun hm => hall _ hm (by decide),
      fun hm => hall _ hm (by decide)⟩
    rintro rfl
    simp at hlen
  · rintro ⟨hne, h1, h2, h3⟩
    have hd : s.data ≠ [] := by
      intro h
      exact hne (String.ext (h.trans rfl))
    refine ⟨?_, fun c hc hp => ?_⟩
    · have : s.length = s.data.length := rfl
      rw [this]
      exact List.length_pos.mpr hd
    · simp only [Bool.or_eq_true, beq_iff_eq] at hp
      rcases hp with (hp | hp) | hp
      · exact h1 (hp ▸ hc)
      · exact h2 (hp ▸ hc)
      · exact h3 (hp ▸ hc)

/-- Claim C8: both name-validity predicates return true exactly when
the string is non-empty and contains none of space, `/`, `\` — so
every accepted name contains no path separator. -/
theorem name_validity (s : String) :
    (OrganizationName.IsValid s = true
      ↔ s ≠ "" ∧ ' ' ∉ s.data ∧ '/' ∉ s.data ∧ '\\' ∉ s.data)
    ∧ (RepositoryName.IsValid s = true
      ↔ s ≠ "" ∧ ' ' ∉ s.data ∧ '/' ∉ s.data ∧ '\\' ∉ s.data) :=
  ⟨valid_name_iff s, valid_name_iff s⟩

/-- A list is an initial segment of itself followed by anything. -/
theorem leadsWith_append (l r : List Char) : leadsWith l (l ++ r) = true := by
  induction l with
  | nil => rfl
  | cons a as ih => simp [leadsWith, ih]

/-- The empty pattern occurs at least once in any list. -/
theorem one_le_countOcc_nil (h : List Char) : 1 ≤ countOcc [] h := by
  induction h with
  | nil => simp [countOcc]
  | cons c t ih => simp [countOcc, leadsWith]

/-- A pattern occurs at least once in itself followed by anything. -/
theorem one_le_countOcc_self_append (n r : List Char) : 1 ≤ countOcc n (n ++ r) := by
  cases n with
  | nil => exact one_le_countOcc_nil r
  | cons c t =>
      have hl : leadsWith (c :: t) (c :: (t ++ r)) = true := by
        simpa using leadsWith_append (c :: t) r
      simp [countOcc, hl]

/-- Prepending cannot remove occurrences. -/
theorem countOcc_le_append (n pre h : List Char) : countOcc n h ≤ countOcc n (pre ++ h) := by
  induction pre with
  | nil => simp
  | cons c t ih => exact Nat.le_trans ih (Nat.le_add_left _ _)

/-- `takeWhile` consumes exactly a leading block of satisfying elements
up to the first failing one. -/
theorem takeWhile_append_cons {α : Type} (p : α → Bool) (l1 : List α) (d : α) (l2 : List α)
    (h1 : ∀ c ∈ l1, p c = true) (h2 : p d = false) :
    (l1 ++ d :: l2).takeWhile p = l1 := by
  induction l1 with
  | nil => simp [List.takeWhile_cons, h2]
  | cons a as ih =>
      have ha := h1 a (by simp)
      simp [List.takeWhile_cons, ha, ih (fun c hc => h1 c (by simp [hc]))]

/-- Claim C1 (amended): in HTTP mode, for a private record the
constructed URL is exactly `https://<token>@github.com/<org>/<name>.git`;
the token occurs in it at least once, and when the token contains no
`@` the segment before the URL's first `@` is exactly `https://`
followed by the token — but the token may textually recur later in the
URL.  For a public record the URL equals the plain clone URL, and
contains no occurrence of the token provided the token is not a
substring of that clone URL. -/
theorem http_url_token_embedding (r : Repository) (dir tok org : String) :
    (r.priv = true →
      constructCloneURL ⟨r, dir, tok, org, CloneMethod.http⟩
        = "https://" ++ tok ++ "@github.com/" ++ org ++ "/" ++ r.name ++ ".git"
      ∧ 1 ≤ countOcc tok.data (constructCloneURL ⟨r, dir, tok, org, CloneMethod.http⟩).data
      ∧ ((∀ c ∈ tok.data, c ≠ '@') →
          (constructCloneURL ⟨r, dir, tok, org, CloneMethod.http⟩).data.takeWhile
            (fun c => c != '@') = ("https://" : String).data ++ tok.data))
    ∧ (r.priv = false →
      constructCloneURL ⟨r, dir, tok, org, CloneMethod.http⟩ = r.cloneURL
      ∧ (countOcc tok.data r.cloneURL.data = 0 →
          countOcc tok.data (constructCloneURL ⟨r, dir, tok, org, CloneMethod.http⟩).data = 0)) := by
  constructor
  · intro hp
    have hurl : constructCloneURL ⟨r, dir, tok, org, CloneMethod.http⟩
        = "https://" ++ tok ++ "@github.com/" ++ org ++ "/" ++ r.name ++ ".git" := by
      simp [constructCloneURL, hp]
    have hat : ("@github.com/" : String).data = '@' :: ("github.com/" : String).data := rfl
    have hdata : (constructCloneURL ⟨r, dir, tok, org, CloneMethod.http⟩).data
        = ("https://" : String).data ++ (tok.data
            ++ ('@' :: (("github.com/" : String).data ++ (org.data
                ++ (("/" : String).data ++ (r.name.data ++ (".git" : String).data)))))) := by
      rw [hurl]
      simp only [String.data_append, List.append_assoc, hat, List.cons_append]
    refine ⟨hurl, ?_, ?_⟩
    · rw [hdata]
      exact Nat.le_trans (one_le_countOcc_self_append tok.data _) (countOcc_le_append _ _ _)
    · intro hnoat
      rw [hdata, ← List.append_assoc]
      refine takeWhile_append_cons _ _ _ _ ?_ (by simp)
      intro c hc
      rcases List.mem_append.1 hc with hch | hct
      · have hh : ∀ x ∈ ("https://" : String).data, x ≠ '@' := by decide
        simpa using hh c hch
      · simpa using hnoat c hct
  · intro hp
    have hurl : constructCloneURL ⟨r, dir, tok, org, CloneMethod.http⟩ = r.cloneURL := by
      simp [constructCloneURL, hp]
    exact ⟨hurl, fun h0 => by rw [hurl]; exact h0⟩

/-- Counterexample to claim C1 as stated: with token `"git"` the
private-record URL contains three occurrences of the token, not
exactly one; the public-record URL (the plain clone URL) does contain
the token; and with token `"a@b"` the segment before the first `@` is
not `https://` followed by the token. -/
theorem http_url_token_count_cex :
    countOcc "git".data
      (constructCloneURL ⟨demoPriv, "/tmp", "git", "acme", CloneMethod.http⟩).data ≠ 1
    ∧ countOcc "git".data
      (constructCloneURL ⟨demoPub, "/tmp", "git", "acme", CloneMethod.http⟩).data ≠ 0
    ∧ ¬ ((constructCloneURL ⟨demoPriv, "/tmp", "a@b", "acme", CloneMethod.http⟩).data.takeWhile
          (fun c => c != '@') = ("https://" : String).data ++ "a@b".data) := by
  refine ⟨by decide, by decide, by decide⟩

/-- Witness for claim C1 (amended) at a concrete private and public
record with token "tok123". -/
theorem http_url_token_embedding_witness :
    constructCloneURL ⟨demoPriv, "/tmp", "tok123", "acme", CloneMethod.http⟩
      = "https://" ++ "tok123" ++ "@github.com/" ++ "acme" ++ "/" ++ demoPriv.name ++ ".git"
    ∧ 1 ≤ countOcc "tok123".data
        (constructCloneURL ⟨demoPriv, "/tmp", "tok123", "acme", CloneMethod.http⟩).data
    ∧ (constructCloneURL ⟨demoPriv, "/tmp", "tok123", "acme", CloneMethod.http⟩).data.takeWhile
        (fun c => c != '@') = ("https://" : String).data ++ "tok123".data
    ∧ constructCloneURL ⟨demoPub, "/tmp", "tok123", "acme", CloneMethod.http⟩ = demoPub.cloneURL
    ∧ countOcc "tok123".data
        (constructCloneURL ⟨demoPub, "/tmp", "tok123", "acme", CloneMethod.http⟩).data = 0 := by
  have h1 := (http_url_token_embedding demoPriv "/tmp" "tok123" "acme").1 rfl
  have h2 := (http_url_token_embedding demoPub "/tmp" "tok123" "acme").2 rfl
  exact ⟨h1.1, h1.2.1, h1.2.2 (by decide), h2.1, h2.2 (by decide)⟩

/-- Running the pagination loop over `k` consecutive successful
non-empty pages followed by an empty page returns the accumulator
extended by the concatenation of those pages, in order. -/
theorem fetchPages_run (doGet : Nat → Except String HTTPResponse)
    (decode : String → Except String (List Repository))
    (pages : Nat → List Repository) :
    ∀ (k page fuel : Nat) (acc : List Repository), k < fuel →
    (∀ i, page ≤ i → i ≤ page + k →
      ∃ r, doGet i = Except.ok r ∧ r.statusCode = 200 ∧ decode r.body = Except.ok (pages i)) →
    (∀ i, page ≤ i → i < page + k → pages i ≠ []) →
    pages (page + k) = [] →
    fetchPages doGet decode fuel page acc
      = some (Except.ok (acc ++ concatFrom pages page k)) := by
  intro k
  induction k with
  | zero =>
      intro page fuel acc hfuel hgood _ hlast
      obtain ⟨f, rfl⟩ : ∃ f, fuel = f + 1 := ⟨fuel - 1, by omega⟩
      obtain ⟨r, hr, h200, hdec⟩ := hgood page (le_refl _) (by omega)
      rw [Nat.add_zero] at hlast
      rw [hlast] at hdec
      simp [fetchPages, hr, h200, hdec, concatFrom]
  | succ k ih =>
      intro page fuel acc hfuel hgood hne hlast
      obtain ⟨f, rfl⟩ : ∃ f, fuel = f + 1 := ⟨fuel - 1, by omega⟩
      obtain ⟨r, hr, h200, hdec⟩ := hgood page (le_refl _) (by omega)
      have hpne : pages page ≠ [] := hne page (le_refl _) (by omega)
      have hsh : page + 1 + k = page + (k + 1) := by omega
      have hrec := ih (page + 1) f (acc ++ pages page) (by omega)
        (fun i hi1 hi2 => hgood i (by omega) (by omega))
        (fun i hi1 hi2 => hne i (by omega) (by omega))
        (by rw [hsh]; exact hlast)
      have hcs : concatFrom pages page (k + 1)
          = pages page ++ concatFrom pages (page + 1) k := by
        simp only [concatFrom, List.range_succ_eq_map, List.map_cons, List.flatten_cons,
          List.map_map]
        have he : (fun i => pages (page + 1 + i)) = (fun i => pages (page + Nat.succ i)) := by
          funext i
          have : page + 1 + i = page + Nat.succ i := by omega
          rw [this]
        rw [Nat.add_zero, Function.comp_def]
        simp only [he]
      rw [hcs]
      simp [fetchPages, hr, h200, hdec, List.length_eq_zero, hpne, hrec, List.append_assoc]

/-- Claim C5: when pages 1 through N are served successfully and
non-empty and page N+1 is empty, `FetchAllRepos` returns exactly the
concatenation of the non-empty pages in order, with no error; with
N = 0 (first page empty) it returns the empty sequence. -/
theorem fetch_all_repos_concat (doGet : Nat → Except String HTTPResponse)
    (decode : String → Except String (List Repository))
    (pages : Nat → List Repository) (N fuel : Nat)
    (hfuel : N < fuel)
    (hok : ∀ i, 1 ≤ i → i ≤ N + 1 →
      ∃ r, doGet i = Except.ok r ∧ r.statusCode = 200 ∧ decode r.body = Except.ok (pages i))
    (hne : ∀ i, 1 ≤ i → i ≤ N → pages i ≠ [])
    (hempty : pages (N + 1) = []) :
    FetchAllRepos doGet decode fuel = some (Except.ok (concatFrom pages 1 N)) := by
  have hsh : 1 + N = N + 1 := by omega
  have h := fetchPages_run doGet decode pages N 1 fuel [] hfuel
    (fun i hi1 hi2 => hok i hi1 (by omega))
    (fun i hi1 hi2 => hne i hi1 (by omega))
    (by rw [hsh]; exact hempty)
  simpa [FetchAllRepos] using h

/-- Witness for claim C5: a concrete server with one non-empty page
followed by an empty one yields exactly that page, and a server whose
first page is empty yields the empty list. -/
theorem fetch_all_repos_concat_witness :
    FetchAllRepos
      (fun p => Except.ok ⟨200, "200 OK", if p = 1 then "page1" else "empty"⟩)
      (fun b => Except.ok (if b = "page1" then [repoA] else []))
      2 = some (Except.ok [repoA])
    ∧ FetchAllRepos
      (fun _ => Except.ok ⟨200, "200 OK", "empty"⟩)
      (fun b => Except.ok (if b = "page1" then [repoA] else []))
      1 = some (Except.ok []) := by
  constructor
  · have h := fetch_all_repos_concat
      (fun p => Except.ok ⟨200, "200 OK", if p = 1 then "page1" else "empty"⟩)
      (fun b => Except.ok (if b = "page1" then [repoA] else []))
      (fun p => if p = 1 then [repoA] else []) 1 2 (by omega)
      (fun i hi1 hi2 => by
        refine ⟨⟨200, "200 OK", if i = 1 then "page1" else "empty"⟩, rfl, rfl, ?_⟩
        by_cases hi : i = 1 <;> simp [hi])
      (fun i hi1 hi2 => by
        have : i = 1 := by omega
        simp [this])
      (by simp)
    simpa [concatFrom] using h
  · have h := fetch_all_repos_concat
      (fun _ => Except.ok ⟨200, "200 OK", "empty"⟩)
      (fun b => Except.ok (if b = "page1" then [repoA] else []))
      (fun _ => []) 0 1 (by omega)
      (fun i hi1 hi2 => ⟨⟨200, "200 OK", "empty"⟩, rfl, rfl, by simp⟩)
      (fun i hi1 hi2 => by omega)
      rfl
    simpa [concatFrom] using h

/-- After `k` successful non-empty pages, a page answered with a
non-success status makes the loop return the formatted status error. -/
theorem fetchPages_abort (doGet : Nat → Except String HTTPResponse)
    (decode : String → Except String (List Repository)) :
    ∀ (k page fuel : Nat) (acc : List Repository) (rbad : HTTPResponse), k < fuel →
    (∀ i, page ≤ i → i < page + k →
      ∃ r l, doGet i = Except.ok r ∧ r.statusCode = 200 ∧ decode r.body = Except.ok l ∧ l ≠ []) →
    doGet (page + k) = Except.ok rbad →
    rbad.statusCode ≠ 200 →
    fetchPages doGet decode fuel page acc
      = some (Except.error ("API request failed: " ++ rbad.status ++ " - " ++ rbad.body)) := by
  intro k
  induction k with
  | zero =>
      intro page fuel acc rbad hfuel _ hbad hst
      obtain ⟨f, rfl⟩ : ∃ f, fuel = f + 1 := ⟨fuel - 1, by omega⟩
      rw [Nat.add_zero] at hbad
      simp [fetchPages, hbad, hst]
  | succ k ih =>
      intro page fuel acc rbad hfuel hgood hbad hst
      obtain ⟨f, rfl⟩ : ∃ f, fuel = f + 1 := ⟨fuel - 1, by omega⟩
      obtain ⟨r, l, hr, h200, hdec, hl⟩ := hgood page (le_refl _) (by omega)
      have hsh : page + 1 + k = page + (k + 1) := by omega
      have hrec := ih (page + 1) f (acc ++ l) rbad (by omega)
        (fun i hi1 hi2 => hgood i (by omega) (by omega))
        (by rw [hsh]; exact hbad) hst
      simp [fetchPages, hr, h200, hdec, List.length_eq_zero, hl, hrec]

/-- Claim C6: if pages 1 through M succeed non-empty and the request
for page M+1 comes back with a non-success status code, the fetch
returns the error formatted from that status and body — and never an
`ok` result, so no partial list of records is returned. -/
theorem fetch_error_aborts (doGet : Nat → Except String HTTPResponse)
    (decode : String → Except String (List Repository))
    (M fuel : Nat) (rbad : HTTPResponse)
    (hfuel : M < fuel)
    (hok : ∀ i, 1 ≤ i → i ≤ M →
      ∃ r l, doGet i = Except.ok r ∧ r.statusCode = 200 ∧ decode r.body = Except.ok l ∧ l ≠ [])
    (hbad : doGet (M + 1) = Except.ok rbad)
    (hst : rbad.statusCode ≠ 200) :
    FetchAllRepos doGet decode fuel
      = some (Except.error ("API request failed: " ++ rbad.status ++ " - " ++ rbad.body))
    ∧ ∀ l, FetchAllRepos doGet decode fuel ≠ some (Except.ok l) := by
  have hsh : 1 + M = M + 1 := by omega
  have h : FetchAllRepos doGet decode fuel
      = some (Except.error ("API request failed: " ++ rbad.status ++ " - " ++ rbad.body)) :=
    fetchPages_abort doGet decode M 1 fuel [] rbad hfuel
      (fun i hi1 hi2 => hok i hi1 (by omega))
      (by rw [hsh]; exact hbad) hst
  refine ⟨h, fun l hcontra => ?_⟩
  rw [h] at hcontra
  simp at hcontra

/-- Witness for claim C6: one successful non-empty page followed by a
403 response yields the formatted error. -/
theorem fetch_error_aborts_witness :
    FetchAllRepos
      (fun p => Except.ok (if p = 1 then ⟨200, "200 OK", "page1"⟩
                           else ⟨403, "403 Forbidden", "rate limited"⟩))
      (fun b => Except.ok (if b = "page1" then [repoA] else []))
      3 = some (Except.error ("API request failed: " ++ "403 Forbidden" ++ " - " ++ "rate limited")) := by
  have h := fetch_error_aborts
    (fun p => Except.ok (if p = 1 then ⟨200, "200 OK", "page1"⟩
                         else ⟨403, "403 Forbidden", "rate limited"⟩))
    (fun b => Except.ok (if b = "page1" then [repoA] else []))
    1 3 ⟨403, "403 Forbidden", "rate limited"⟩ (by omega)
    (fun i hi1 hi2 => by
      have : i = 1 := by omega
      subst this
      exact ⟨⟨200, "200 OK", "page1"⟩, [repoA], by simp, rfl, by simp, by simp⟩)
    (by simp)
    (by simp)
  exact h.1

end Gitgrab
